import Mathlib

/-!
Verification development for the `broadcast-relay` repository (`src/main.go`).

The program relays UDP datagrams received on one listening socket to a fixed
set of resolved target endpoints.  We give a shallow embedding of its data
model and operations:

* `UDPAddr` models `net.UDPAddr` as a resolved (IP bytes, port) pair; the
  source's `srcAddr.IP.Equal(target.IP) && srcAddr.Port == target.Port`
  comparison becomes `isSourceAddr`.
* `Stats` models the `Stats` struct; counters are Go `uint64`, modelled as
  `Nat` (no part of the program depends on wraparound).  The mutex only
  serialises the increments, so each method is a pure state update.
* One iteration of `Relay.receiveLoop` becomes `receiveLoopIter`, driven by a
  `ReadEvent` describing the outcome of `conn.ReadFromUDP` and by the two
  points where the loop samples `stopChan` (top of loop, and inside the
  read-error branch).
* `Relay.forwardPacket` becomes `forwardPacket`, driven by a `ForwardEvent`
  describing the outcomes of `net.DialUDP` and `conn.Write` (a successful
  UDP `Write` returns `len(data)`).
-/

namespace BroadcastRelay

/-- Resolved UDP address: IP (as its byte sequence) and port, after
`net.ResolveUDPAddr`.  `net.UDPAddr` also carries a zone, unused here. -/
structure UDPAddr where
  ip : List Nat
  port : Nat
deriving DecidableEq, Repr

/-- The `Stats` struct of `main.go` (field order as in the source); the
`sync.RWMutex` serialises the updates and is not part of the data. -/
structure Stats where
  PacketsReceived : Nat
  PacketsForwarded : Nat
  BytesReceived : Nat
  BytesForwarded : Nat
  Errors : Nat
deriving DecidableEq, Repr

/-- Zero value of `Stats`, as allocated by `&Stats{}` in `NewRelay`. -/
def Stats.init : Stats := ⟨0, 0, 0, 0, 0⟩

/-- `func (s *Stats) AddReceived(bytes int)`. -/
def Stats.AddReceived (s : Stats) (bytes : Nat) : Stats :=
  { s with PacketsReceived := s.PacketsReceived + 1
           BytesReceived := s.BytesReceived + bytes }

/-- `func (s *Stats) AddForwarded(bytes int)`. -/
def Stats.AddForwarded (s : Stats) (bytes : Nat) : Stats :=
  { s with PacketsForwarded := s.PacketsForwarded + 1
           BytesForwarded := s.BytesForwarded + bytes }

/-- `func (s *Stats) AddError()`. -/
def Stats.AddError (s : Stats) : Stats :=
  { s with Errors := s.Errors + 1 }

/-- The loop-prevention test of `receiveLoop`:
`srcAddr.IP.Equal(target.IP) && srcAddr.Port == target.Port`. -/
def isSourceAddr (src target : UDPAddr) : Bool :=
  src.ip == target.ip && src.port == target.port

/-- Targets that survive the skip check, in configured order: `receiveLoop`
dispatches `go r.forwardPacket(data, target)` exactly for these. -/
def dispatchTargets (targets : List UDPAddr) (src : UDPAddr) : List UDPAddr :=
  targets.filter (fun t => !(isSourceAddr src t))

/-- Outcome of one `conn.ReadFromUDP(buffer)` call: a timeout error
(`netErr.Timeout()`), a genuine read error, or a successful read of a
datagram `data` (so `n = data.length`) from source address `src`. -/
inductive ReadEvent where
  | timeout
  | readErr
  | packet (src : UDPAddr) (data : List Nat)
deriving DecidableEq, Repr

/-- Whether the iteration `return`s out of `receiveLoop` or reaches the next
`for` iteration. -/
inductive LoopOutcome where
  | exitLoop
  | continueLoop
deriving DecidableEq, Repr

/-- One iteration of `Relay.receiveLoop`.  `stopRequestedTop` is whether the
`select` at the top of the loop sees `stopChan` closed; `stopRequestedErr` is
whether the `select` inside the read-error branch sees it closed.  Returns
the loop outcome, the updated stats, and the list of dispatched forwards
`(target, data)` — the arguments of each `go r.forwardPacket(data, target)`. -/
def receiveLoopIter (stopRequestedTop stopRequestedErr : Bool)
    (targets : List UDPAddr) (stats : Stats) (ev : ReadEvent) :
    LoopOutcome × Stats × List (UDPAddr × List Nat) :=
  if stopRequestedTop then (.exitLoop, stats, [])
  else
    match ev with
    | .timeout => (.continueLoop, stats, [])
    | .readErr =>
        if stopRequestedErr then (.exitLoop, stats, [])
        else (.continueLoop, stats.AddError, [])
    | .packet src data =>
        (.continueLoop, stats.AddReceived data.length,
          (dispatchTargets targets src).map (fun t => (t, data)))

/-- Outcome of one `Relay.forwardPacket` call: `net.DialUDP` fails,
`conn.Write` fails, or the write succeeds (returning `len(data)`). -/
inductive ForwardEvent where
  | dialErr
  | writeErr
  | writeOk
deriving DecidableEq, Repr

/-- `Relay.forwardPacket` as a stats transformer: dial failure or write
failure calls `AddError` and returns; a successful write of the whole
datagram calls `AddForwarded(n)` with `n = data.length`. -/
def forwardPacket (stats : Stats) (data : List Nat) (ev : ForwardEvent) : Stats :=
  match ev with
  | .dialErr => stats.AddError
  | .writeErr => stats.AddError
  | .writeOk => stats.AddForwarded data.length

/-- Claim C1: on a successfully received datagram from source `src`, the
receive loop dispatches one forward per configured target whose (IP, port)
differs from `src`, in configured order, and dispatches none to a target
whose IP and port both equal `src`'s. -/
theorem receiveLoopIter_forwards_exactly_non_source
    (stopRequestedErr : Bool) (targets : List UDPAddr) (stats : Stats)
    (src : UDPAddr) (data : List Nat) (t : UDPAddr) :
    (receiveLoopIter false stopRequestedErr targets stats (.packet src data)).2.2
      = (targets.filter (fun u => !(isSourceAddr src u))).map (fun u => (u, data)) ∧
    ((t, data) ∈ (receiveLoopIter false stopRequestedErr targets stats (.packet src data)).2.2
      ↔ t ∈ targets ∧ ¬(src.ip = t.ip ∧ src.port = t.port)) := by
  constructor
  · rfl
  · simp [receiveLoopIter, dispatchTargets, isSourceAddr, List.mem_map, List.mem_filter,
      and_assoc]
    tauto

/-- Claim C5: a forward operation either succeeds, writing the full payload
and incrementing the forwarded-packet and forwarded-byte counters, or fails
on dial or write, incrementing the error counter exactly once; and with two
targets of which one is unreachable, in either completion order, `Errors`
rises by exactly 1 and `PacketsForwarded` by exactly 1. -/
theorem forwardPacket_success_or_single_error (s : Stats) (d d₁ d₂ : List Nat) :
    forwardPacket s d .writeOk
      = { s with PacketsForwarded := s.PacketsForwarded + 1
                 BytesForwarded := s.BytesForwarded + d.length } ∧
    forwardPacket s d .dialErr = { s with Errors := s.Errors + 1 } ∧
    forwardPacket s d .writeErr = { s with Errors := s.Errors + 1 } ∧
    ((forwardPacket (forwardPacket s d₁ .writeOk) d₂ .dialErr).Errors = s.Errors + 1 ∧
     (forwardPacket (forwardPacket s d₁ .writeOk) d₂ .dialErr).PacketsForwarded
        = s.PacketsForwarded + 1 ∧
     (forwardPacket (forwardPacket s d₂ .dialErr) d₁ .writeOk).Errors = s.Errors + 1 ∧
     (forwardPacket (forwardPacket s d₂ .dialErr) d₁ .writeOk).PacketsForwarded
        = s.PacketsForwarded + 1) := by
  refine ⟨rfl, rfl, rfl, rfl, rfl, rfl, rfl⟩

/-- Claim C6: classification of read outcomes in `receiveLoop`: a timeout is
retried with no error counted (whatever the stop flag would say); a genuine
read error with shutdown requested exits silently with no error counted; a
genuine read error without shutdown counts exactly one error and the loop
continues. -/
theorem receiveLoopIter_error_classification
    (stopRequestedErr : Bool) (targets : List UDPAddr) (s : Stats) :
    receiveLoopIter false stopRequestedErr targets s .timeout
      = (.continueLoop, s, []) ∧
    receiveLoopIter false true targets s .readErr = (.exitLoop, s, []) ∧
    receiveLoopIter false false targets s .readErr
      = (.continueLoop, { s with Errors := s.Errors + 1 }, []) := by
  refine ⟨rfl, rfl, rfl⟩

/-- Claim C10: a zero-byte datagram successfully read from `src` is counted
as one received packet and zero received bytes, and a forward of the empty
payload is dispatched to every configured target other than `src`; empty
datagrams are not filtered out. -/
theorem receiveLoopIter_empty_datagram_counted
    (stopRequestedErr : Bool) (targets : List UDPAddr) (s : Stats) (src : UDPAddr) :
    receiveLoopIter false stopRequestedErr targets s (.packet src [])
      = (.continueLoop,
         { s with PacketsReceived := s.PacketsReceived + 1
                  BytesReceived := s.BytesReceived },
         (targets.filter (fun t => !(isSourceAddr src t))).map (fun t => (t, ([] : List Nat)))) := by
  rfl

/-!
Engine-level execution traces for the stats invariant.  While the engine is
running, the mutations of `stats` are exactly: one `receiveLoop` iteration
per read outcome, and one `forwardPacket` run per dispatched goroutine.  The
mutex in `Stats` serialises the increments, so any concurrent execution is
some interleaving, i.e. a list of `EngineEvent`s applied in order.
-/

/-- One serialised stats mutation source: a `receiveLoop` iteration with read
outcome `ev` (while running, both `stopChan` samples see it open), or one
dispatched `forwardPacket` goroutine running to completion on `data`. -/
inductive EngineEvent where
  | readEv (ev : ReadEvent)
  | runForward (data : List Nat) (ev : ForwardEvent)
deriving DecidableEq, Repr

/-- Effect of one `EngineEvent` on the shared `Stats`. -/
def engineStep (targets : List UDPAddr) (s : Stats) : EngineEvent → Stats
  | .readEv ev => (receiveLoopIter false false targets s ev).2.1
  | .runForward data ev => forwardPacket s data ev

/-- Folding an execution trace over the shared `Stats`. -/
def runEngine (targets : List UDPAddr) (s : Stats) (evs : List EngineEvent) : Stats :=
  evs.foldl (engineStep targets) s

/-- Number of successfully received packets in a trace. -/
def countPacketsReceived : List EngineEvent → Nat
  | [] => 0
  | .readEv (.packet _ _) :: evs => countPacketsReceived evs + 1
  | _ :: evs => countPacketsReceived evs

/-- Total bytes of successfully received packets in a trace. -/
def countBytesReceived : List EngineEvent → Nat
  | [] => 0
  | .readEv (.packet _ data) :: evs => countBytesReceived evs + data.length
  | _ :: evs => countBytesReceived evs

/-- Number of successful forward operations in a trace. -/
def countForwardOk : List EngineEvent → Nat
  | [] => 0
  | .runForward _ .writeOk :: evs => countForwardOk evs + 1
  | _ :: evs => countForwardOk evs

/-- Total bytes of successfully forwarded payloads in a trace. -/
def sumForwardedBytes : List EngineEvent → Nat
  | [] => 0
  | .runForward data .writeOk :: evs => sumForwardedBytes evs + data.length
  | _ :: evs => sumForwardedBytes evs

/-- Number of error events (genuine read errors while running, dial
failures, write failures) in a trace. -/
def countErrorEvents : List EngineEvent → Nat
  | [] => 0
  | .readEv .readErr :: evs => countErrorEvents evs + 1
  | .runForward _ .dialErr :: evs => countErrorEvents evs + 1
  | .runForward _ .writeErr :: evs => countErrorEvents evs + 1
  | _ :: evs => countErrorEvents evs

/-- Componentwise order on the counters. -/
def Stats.le (a b : Stats) : Prop :=
  a.PacketsReceived ≤ b.PacketsReceived ∧ a.PacketsForwarded ≤ b.PacketsForwarded ∧
  a.BytesReceived ≤ b.BytesReceived ∧ a.BytesForwarded ≤ b.BytesForwarded ∧
  a.Errors ≤ b.Errors

theorem runEngine_counts (targets : List UDPAddr) (evs : List EngineEvent) (s : Stats) :
    runEngine targets s evs =
      ⟨s.PacketsReceived + countPacketsReceived evs,
       s.PacketsForwarded + countForwardOk evs,
       s.BytesReceived + countBytesReceived evs,
       s.BytesForwarded + sumForwardedBytes evs,
       s.Errors + countErrorEvents evs⟩ := by
  induction evs generalizing s with
  | nil => simp [runEngine, countPacketsReceived, countForwardOk, countBytesReceived,
      sumForwardedBytes, countErrorEvents]
  | cons e evs ih =>
    have hstep : runEngine targets s (e :: evs) = runEngine targets (engineStep targets s e) evs := rfl
    rw [hstep, ih]
    cases e with
    | readEv ev =>
      cases ev with
      | timeout => simp [engineStep, receiveLoopIter, countPacketsReceived, countForwardOk,
          countBytesReceived, sumForwardedBytes, countErrorEvents]
      | readErr =>
        simp [engineStep, receiveLoopIter, Stats.AddError, countPacketsReceived,
          countForwardOk, countBytesReceived, sumForwardedBytes, countErrorEvents]
        omega
      | packet src data =>
        simp [engineStep, receiveLoopIter, Stats.AddReceived,
          countPacketsReceived, countForwardOk, countBytesReceived, sumForwardedBytes,
          countErrorEvents]
        omega
    | runForward data ev =>
      cases ev with
      | dialErr =>
        simp [engineStep, forwardPacket, Stats.AddError, countPacketsReceived,
          countForwardOk, countBytesReceived, sumForwardedBytes, countErrorEvents]
        omega
      | writeErr =>
        simp [engineStep, forwardPacket, Stats.AddError, countPacketsReceived,
          countForwardOk, countBytesReceived, sumForwardedBytes, countErrorEvents]
        omega
      | writeOk =>
        simp [engineStep, forwardPacket, Stats.AddForwarded, countPacketsReceived,
          countForwardOk, countBytesReceived, sumForwardedBytes, countErrorEvents]
        omega

/-- Claim C4: over any execution trace from the zero stats, `PacketsReceived`
equals the number of received packets, `PacketsForwarded` equals the number
of successful forwards, `BytesForwarded` equals the sum of successfully
forwarded payload sizes; each single mutation only increments, and every
counter is monotonically non-decreasing along the engine's lifetime (any
extension of the trace). -/
theorem stats_counters_match_events (targets : List UDPAddr)
    (evs evs' : List EngineEvent) :
    (runEngine targets Stats.init evs).PacketsReceived = countPacketsReceived evs ∧
    (runEngine targets Stats.init evs).PacketsForwarded = countForwardOk evs ∧
    (runEngine targets Stats.init evs).BytesForwarded = sumForwardedBytes evs ∧
    (∀ s e, Stats.le s (engineStep targets s e)) ∧
    Stats.le (runEngine targets Stats.init evs) (runEngine targets Stats.init (evs ++ evs')) := by
  have hmono : ∀ (s : Stats) (e : EngineEvent), Stats.le s (engineStep targets s e) := by
    intro s e
    cases e with
    | readEv ev =>
      cases ev <;>
        simp [engineStep, receiveLoopIter, Stats.AddError, Stats.AddReceived, Stats.le]
    | runForward data ev =>
      cases ev <;>
        simp [engineStep, forwardPacket, Stats.AddError, Stats.AddForwarded, Stats.le]
  refine ⟨by rw [runEngine_counts]; simp [Stats.init],
          by rw [runEngine_counts]; simp [Stats.init],
          by rw [runEngine_counts]; simp [Stats.init],
          hmono, ?_⟩
  have hsplit : runEngine targets Stats.init (evs ++ evs')
      = runEngine targets (runEngine targets Stats.init evs) evs' := by
    simp [runEngine, List.foldl_append]
  rw [hsplit]
  clear hsplit
  generalize runEngine targets Stats.init evs = s
  induction evs' generalizing s with
  | nil => simp [runEngine, Stats.le]
  | cons e evs' ih =>
    have h1 := hmono s e
    have h2 := ih (engineStep targets s e)
    have hstep : runEngine targets s (e :: evs') = runEngine targets (engineStep targets s e) evs' := rfl
    rw [hstep]
    obtain ⟨a1, a2, a3, a4, a5⟩ := h1
    obtain ⟨b1, b2, b3, b4, b5⟩ := h2
    exact ⟨a1.trans b1, a2.trans b2, a3.trans b3, a4.trans b4, a5.trans b5⟩

/-!
Construction.  `NewRelay` resolves each target string, resolves the listen
address, binds the socket (`net.ListenUDP`), and finally calls
`SetReadBuffer` whose failure is only logged.  The network is an oracle
`NetEnv`; besides the `Except` result we record the list of performed
network side effects, in order, to state which operations were reached.
-/

/-- The `Config` struct of `main.go` (the `ShowVersion` flag only matters to
`parseConfig`, which exits before construction when it is set). -/
structure Config where
  ListenPort : Nat
  ListenAddr : String
  TargetAddrs : List String
  BufferSize : Nat
  Verbose : Bool
deriving DecidableEq, Repr

/-- Oracle for the network calls made by `NewRelay`:
`net.ResolveUDPAddr("udp", s)` (with `none` for a resolution error), whether
`net.ListenUDP` succeeds, and whether `conn.SetReadBuffer` succeeds. -/
structure NetEnv where
  resolveUDPAddr : String → Option UDPAddr
  listenOk : Bool
  setReadBufferOk : Bool

/-- The `Relay` struct, restricted to the data fixed at construction (the
socket, stats pointer, stop channel and wait group carry no data here). -/
structure Relay where
  config : Config
  targetConns : List UDPAddr
deriving DecidableEq, Repr

/-- Side effects `NewRelay` can perform, in program order. -/
inductive NetAction where
  | resolveTarget (s : String)
  | resolveListen (s : String)
  | listenUDP
  | setReadBuffer (n : Nat)
  | warnReadBuffer
deriving DecidableEq, Repr


/-- The target-resolution loop of `NewRelay`: first failure aborts with the
formatted error, otherwise the resolved addresses in order.  `resolve` is
`net.ResolveUDPAddr("udp", ·)`. -/
def resolveTargetAddrs (resolve : String → Option UDPAddr) :
    List String → Except String (List UDPAddr)
  | [] => .ok []
  | t :: ts =>
      match resolve t with
      | none => .error ("failed to resolve target address " ++ t)
      | some a =>
          match resolveTargetAddrs resolve ts with
          | .error e => .error e
          | .ok rest => .ok (a :: rest)

/-- Resolution calls actually performed by the target loop (it stops at the
first failure). -/
def targetResolveActions (resolve : String → Option UDPAddr) :
    List String → List NetAction
  | [] => []
  | t :: ts =>
      match resolve t with
      | none => [.resolveTarget t]
      | some _ => .resolveTarget t :: targetResolveActions resolve ts

/-- The listen string `fmt.Sprintf("%s:%d", config.ListenAddr, config.ListenPort)`. -/
def listenAddrString (config : Config) : String :=
  config.ListenAddr ++ ":" ++ toString config.ListenPort

/-- `func NewRelay(config *Config) (*Relay, error)`: resolve every target,
resolve the listen address, bind the socket (`net.ListenUDP`), then attempt
`SetReadBuffer` (failure only logs a warning).  Returns the result and the
performed side effects in order. -/
def NewRelay (env : NetEnv) (config : Config) : Except String Relay × List NetAction :=
  match resolveTargetAddrs env.resolveUDPAddr config.TargetAddrs with
  | .error e => (.error e, targetResolveActions env.resolveUDPAddr config.TargetAddrs)
  | .ok targetConns =>
      let acts := targetResolveActions env.resolveUDPAddr config.TargetAddrs
      match env.resolveUDPAddr (listenAddrString config) with
      | none =>
          (.error "failed to resolve listen address",
           acts ++ [.resolveListen (listenAddrString config)])
      | some _ =>
          if env.listenOk then
            (.ok { config := config, targetConns := targetConns },
             acts ++ [.resolveListen (listenAddrString config), .listenUDP,
                      .setReadBuffer config.BufferSize]
                  ++ (if env.setReadBufferOk then [] else [.warnReadBuffer]))
          else
            (.error "failed to create UDP socket",
             acts ++ [.resolveListen (listenAddrString config), .listenUDP])

/-- The target-splitting step of `parseConfig`: split the `-targets` flag on
commas, trim whitespace, keep the non-empty pieces. -/
def parseTargetAddrs (targets : String) : List String :=
  ((targets.splitOn ",").map (fun t => t.trim)).filter (fun t => !(t == ""))

/-- The empty-target rejection of `parseConfig`: `os.Exit(1)` (modelled as
`none`) when the `-targets` flag is empty or yields no valid entry. -/
def parseConfigTargets (targets : String) : Option (List String) :=
  if targets == "" then none
  else
    let parsed := parseTargetAddrs targets
    if parsed.isEmpty then none else some parsed

theorem resolveTargetAddrs_ok_of_all_some (resolve : String → Option UDPAddr) :
    ∀ ts : List String, (∀ t ∈ ts, (resolve t).isSome) →
      ∃ l, resolveTargetAddrs resolve ts = .ok l := by
  intro ts
  induction ts with
  | nil => exact fun _ => ⟨[], rfl⟩
  | cons t ts ih =>
    intro h
    have ht : (resolve t).isSome := h t (List.mem_cons_self t ts)
    obtain ⟨a, ha⟩ := Option.isSome_iff_exists.mp ht
    obtain ⟨l, hl⟩ := ih (fun u hu => h u (List.mem_cons_of_mem t hu))
    exact ⟨a :: l, by simp [resolveTargetAddrs, ha, hl]⟩

theorem resolveTargetAddrs_not_ok_of_some_none (resolve : String → Option UDPAddr) :
    ∀ ts : List String, (∃ t ∈ ts, resolve t = none) →
      (resolveTargetAddrs resolve ts).isOk = false := by
  intro ts
  induction ts with
  | nil => rintro ⟨t, ht, -⟩; exact absurd ht (List.not_mem_nil t)
  | cons t ts ih =>
    rintro ⟨u, hu, hnone⟩
    rcases List.mem_cons.mp hu with rfl | hu'
    · simp [resolveTargetAddrs, hnone, Except.isOk, Except.toBool]
    · cases h : resolve t with
      | none => simp [resolveTargetAddrs, h, Except.isOk, Except.toBool]
      | some a =>
        have htail := ih ⟨u, hu', hnone⟩
        cases hts : resolveTargetAddrs resolve ts with
        | error e => simp [resolveTargetAddrs, h, hts, Except.isOk, Except.toBool]
        | ok l => rw [hts] at htail; simp [Except.isOk, Except.toBool] at htail

theorem listenUDP_not_mem_targetResolveActions (resolve : String → Option UDPAddr) :
    ∀ ts : List String, NetAction.listenUDP ∉ targetResolveActions resolve ts := by
  intro ts
  induction ts with
  | nil => simp [targetResolveActions]
  | cons t ts ih =>
    cases h : resolve t <;> simp [targetResolveActions, h, ih]

/-- Claim C7: construction fails whenever some target string fails
resolution, or the listen address fails resolution, or the bind fails; and
when a target fails resolution, the socket is never bound. -/
theorem NewRelay_fails_on_resolution_or_bind (env : NetEnv) (config : Config) :
    ((∃ t ∈ config.TargetAddrs, env.resolveUDPAddr t = none) →
        ((NewRelay env config).1.isOk = false ∧
         NetAction.listenUDP ∉ (NewRelay env config).2)) ∧
    (env.resolveUDPAddr (listenAddrString config) = none →
        (NewRelay env config).1.isOk = false) ∧
    (env.listenOk = false → (NewRelay env config).1.isOk = false) := by
  refine ⟨?_, ?_, ?_⟩
  · intro h
    have hres := resolveTargetAddrs_not_ok_of_some_none env.resolveUDPAddr config.TargetAddrs h
    cases hr : resolveTargetAddrs env.resolveUDPAddr config.TargetAddrs with
    | error e =>
      constructor
      · simp [NewRelay, hr, Except.isOk, Except.toBool]
      · simpa [NewRelay, hr] using
          listenUDP_not_mem_targetResolveActions env.resolveUDPAddr config.TargetAddrs
    | ok l => rw [hr] at hres; simp [Except.isOk, Except.toBool] at hres
  · intro h
    cases hr : resolveTargetAddrs env.resolveUDPAddr config.TargetAddrs with
    | error e => simp [NewRelay, hr, Except.isOk, Except.toBool]
    | ok l => simp [NewRelay, hr, h, Except.isOk, Except.toBool]
  · intro h
    cases hr : resolveTargetAddrs env.resolveUDPAddr config.TargetAddrs with
    | error e => simp [NewRelay, hr, Except.isOk, Except.toBool]
    | ok l =>
      cases hl : env.resolveUDPAddr (listenAddrString config) with
      | none => simp [NewRelay, hr, hl, Except.isOk, Except.toBool]
      | some a => simp [NewRelay, hr, hl, h, Except.isOk, Except.toBool]

theorem NewRelay_fails_on_resolution_or_bind_witness :
    (NewRelay ⟨fun _ => none, true, true⟩
        ⟨9999, "0.0.0.0", ["10.0.0.5:9999"], 65535, false⟩).1.isOk = false ∧
    NetAction.listenUDP ∉ (NewRelay ⟨fun _ => none, true, true⟩
        ⟨9999, "0.0.0.0", ["10.0.0.5:9999"], 65535, false⟩).2 :=
  (NewRelay_fails_on_resolution_or_bind ⟨fun _ => none, true, true⟩
      ⟨9999, "0.0.0.0", ["10.0.0.5:9999"], 65535, false⟩).1
    ⟨"10.0.0.5:9999", by simp, rfl⟩

/-- Claim C3 counterexample: `NewRelay` does not fail on an empty target
list.  With zero targets and a successful bind it returns a relay (no
error), so the claim that construction fails for every empty-target
configuration is false of the code. -/
theorem NewRelay_empty_targets_ok_counterexample :
    ((NewRelay ⟨fun _ => some ⟨[0, 0, 0, 0], 9999⟩, true, true⟩
        ⟨9999, "0.0.0.0", [], 65535, false⟩).1).isOk = true := rfl

/-- Claim C3, amended: `NewRelay` itself accepts an empty target list —
given that the listen address resolves and the bind succeeds it returns a
relay with no targets — and the empty-target rejection lives in
`parseConfig`, which exits the process before `NewRelay` runs, so the
configuration built from the flags always carries at least one target. -/
theorem NewRelay_empty_targets_amended (env : NetEnv) (config : Config)
    (hempty : config.TargetAddrs = [])
    (hlisten : (env.resolveUDPAddr (listenAddrString config)).isSome)
    (hbind : env.listenOk = true) :
    (NewRelay env config).1 = .ok { config := config, targetConns := [] } ∧
    (∀ s l, parseConfigTargets s = some l → l ≠ []) := by
  constructor
  · obtain ⟨a, ha⟩ := Option.isSome_iff_exists.mp hlisten
    simp [NewRelay, hempty, resolveTargetAddrs, ha, hbind]
  · intro s l h
    by_cases hs : s = ""
    · simp [parseConfigTargets, hs] at h
    · by_cases hp : parseTargetAddrs s = []
      · simp [parseConfigTargets, hs, hp] at h
      · have heq : parseTargetAddrs s = l := by
          simpa [parseConfigTargets, hs, List.isEmpty_iff, hp] using h
        rw [← heq]
        exact hp

theorem NewRelay_empty_targets_amended_witness :
    (NewRelay ⟨fun _ => some ⟨[0, 0, 0, 0], 9999⟩, true, true⟩
        ⟨9999, "0.0.0.0", [], 65535, false⟩).1
      = .ok { config := ⟨9999, "0.0.0.0", [], 65535, false⟩, targetConns := [] } ∧
    (∀ s l, parseConfigTargets s = some l → l ≠ []) :=
  NewRelay_empty_targets_amended ⟨fun _ => some ⟨[0, 0, 0, 0], 9999⟩, true, true⟩
    ⟨9999, "0.0.0.0", [], 65535, false⟩ rfl rfl rfl

/-- Claim C9: a `SetReadBuffer` failure during construction is non-fatal:
with resolution and bind succeeding, construction returns the very same
relay whether or not the call succeeds, and the failure shows up only as a
logged warning (present exactly when the call fails). -/
theorem NewRelay_readBuffer_failure_nonfatal (env : NetEnv) (config : Config)
    (hres : ∀ t ∈ config.TargetAddrs, (env.resolveUDPAddr t).isSome)
    (hlisten : (env.resolveUDPAddr (listenAddrString config)).isSome)
    (hbind : env.listenOk = true) :
    (NewRelay { env with setReadBufferOk := false } config).1
      = (NewRelay { env with setReadBufferOk := true } config).1 ∧
    (NewRelay { env with setReadBufferOk := false } config).1.isOk = true ∧
    NetAction.warnReadBuffer ∈ (NewRelay { env with setReadBufferOk := false } config).2 ∧
    NetAction.warnReadBuffer ∉ (NewRelay { env with setReadBufferOk := true } config).2 := by
  obtain ⟨l, hl⟩ := resolveTargetAddrs_ok_of_all_some env.resolveUDPAddr config.TargetAddrs hres
  obtain ⟨a, ha⟩ := Option.isSome_iff_exists.mp hlisten
  have hwarn : NetAction.warnReadBuffer ∉ targetResolveActions env.resolveUDPAddr config.TargetAddrs := by
    clear hl
    induction config.TargetAddrs with
    | nil => simp [targetResolveActions]
    | cons t ts ih =>
      cases h : env.resolveUDPAddr t <;> simp [targetResolveActions, h, ih]
  refine ⟨?_, ?_, ?_, ?_⟩ <;>
    simp [NewRelay, hl, ha, hbind, hwarn, Except.isOk, Except.toBool]

theorem NewRelay_readBuffer_failure_nonfatal_witness :
    (NewRelay { (⟨fun _ => some ⟨[10, 0, 0, 5], 9999⟩, true, true⟩ : NetEnv) with
        setReadBufferOk := false } ⟨9999, "0.0.0.0", ["10.0.0.5:9999"], 65535, false⟩).1
      = (NewRelay { (⟨fun _ => some ⟨[10, 0, 0, 5], 9999⟩, true, true⟩ : NetEnv) with
        setReadBufferOk := true } ⟨9999, "0.0.0.0", ["10.0.0.5:9999"], 65535, false⟩).1 ∧
    (NewRelay { (⟨fun _ => some ⟨[10, 0, 0, 5], 9999⟩, true, true⟩ : NetEnv) with
        setReadBufferOk := false } ⟨9999, "0.0.0.0", ["10.0.0.5:9999"], 65535, false⟩).1.isOk = true ∧
    NetAction.warnReadBuffer ∈ (NewRelay { (⟨fun _ => some ⟨[10, 0, 0, 5], 9999⟩, true, true⟩ : NetEnv) with
        setReadBufferOk := false } ⟨9999, "0.0.0.0", ["10.0.0.5:9999"], 65535, false⟩).2 ∧
    NetAction.warnReadBuffer ∉ (NewRelay { (⟨fun _ => some ⟨[10, 0, 0, 5], 9999⟩, true, true⟩ : NetEnv) with
        setReadBufferOk := true } ⟨9999, "0.0.0.0", ["10.0.0.5:9999"], 65535, false⟩).2 :=
  NewRelay_readBuffer_failure_nonfatal ⟨fun _ => some ⟨[10, 0, 0, 5], 9999⟩, true, true⟩
    ⟨9999, "0.0.0.0", ["10.0.0.5:9999"], 65535, false⟩
    (by intro t ht; simp) rfl rfl

/-!
Buffer aliasing between the receive loop and the forward goroutines.
`receiveLoop` allocates one reusable `buffer` and, for each received packet,
passes `data := buffer[:n]` to `go r.forwardPacket(data, target)`.  A Go
slice is a view, not a copy: the goroutine's `conn.Write(data)` reads
`buffer[0:n]` at whatever time the goroutine runs.  We model the shared
buffer explicitly: a pending forward holds only `(target, n)`, and its write
reads the first `n` bytes of the buffer as they are at execution time, while
`conn.ReadFromUDP(buffer)` overwrites the first bytes of the same buffer. -/

/-- Shared state of the receive loop and its forward goroutines: the single
reusable receive buffer, the dispatched-but-not-yet-run forwards (each holds
`(target, n)`, its `data` slice aliasing `buffer[0:n]`), and the writes
performed so far, with the bytes actually written. -/
structure ReceiveBufState where
  buffer : List Nat
  pending : List (UDPAddr × Nat)
  sent : List (UDPAddr × List Nat)
deriving DecidableEq, Repr

/-- State right after `buffer := make([]byte, r.config.BufferSize)`: a
zeroed buffer, nothing dispatched, nothing sent. -/
def initBufState (bufferSize : Nat) : ReceiveBufState :=
  { buffer := List.replicate bufferSize 0, pending := [], sent := [] }

/-- One scheduler step: either the receive loop completes one successful
`ReadFromUDP` (the kernel writes the payload into the start of the buffer)
and dispatches the non-source forwards, or one pending forward goroutine
runs its `conn.Write`, reading its aliased slice of the buffer as it is
now. -/
inductive SchedStep where
  | readPacket (src : UDPAddr) (payload : List Nat)
  | runOldestForward
deriving DecidableEq, Repr

/-- `ReadFromUDP(buffer)` writing an `n`-byte datagram: the first `n` bytes
of the buffer are replaced, the rest keep their previous contents. -/
def writeIntoBuffer (buffer payload : List Nat) : List Nat :=
  payload ++ buffer.drop payload.length

/-- Effect of one scheduler step on the shared state. -/
def aliasStep (targets : List UDPAddr) (st : ReceiveBufState) : SchedStep → ReceiveBufState
  | .readPacket src payload =>
      { st with buffer := writeIntoBuffer st.buffer payload
                pending := st.pending ++
                  (dispatchTargets targets src).map (fun t => (t, payload.length)) }
  | .runOldestForward =>
      match st.pending with
      | [] => st
      | (t, n) :: rest =>
          { st with pending := rest
                    sent := st.sent ++ [(t, st.buffer.take n)] }

/-- Running a whole schedule. -/
def runSched (targets : List UDPAddr) (st : ReceiveBufState) (steps : List SchedStep) :
    ReceiveBufState :=
  steps.foldl (aliasStep targets) st

/-- Claim C2 fails on the code: the payload handed to a forward goroutine is
not copied out of the reusable receive buffer.  With one target, if a 3-byte
datagram `[1, 2, 3]` is received and the next read lands a 2-byte datagram
`[7, 8]` before the first datagram's forward goroutine performs its write,
that goroutine writes `[7, 8, 3]` — bytes of the newer packet plus a stale
byte — instead of the `[1, 2, 3]` it was dispatched for. -/
theorem forwardPacket_reads_overwritten_buffer :
    (runSched [⟨[10, 0, 0, 5], 9999⟩] (initBufState 8)
        [.readPacket ⟨[192, 168, 1, 50], 4000⟩ [1, 2, 3],
         .readPacket ⟨[192, 168, 1, 50], 4000⟩ [7, 8],
         .runOldestForward]).sent
      = [(⟨[10, 0, 0, 5], 9999⟩, [7, 8, 3])] ∧
    ([7, 8, 3] : List Nat) ≠ [1, 2, 3] := by
  refine ⟨rfl, by decide⟩

/-!
Start/stop lifecycle.  `Start` does `wg.Add(1); go receiveLoop` and, when
verbose, `wg.Add(1); go statsReporter`.  The per-packet dispatch in
`receiveLoop` is a bare `go r.forwardPacket(...)` with no `wg.Add`.  `Stop`
performs, in program order: `close(stopChan)`, `conn.Close()`, `wg.Wait()`,
then logs the final stats snapshot. -/

/-- The goroutines the engine can spawn. -/
inductive RelayTask where
  | receiveLoopTask
  | statsReporterTask
  | forwardTask
deriving DecidableEq, Repr

/-- Which goroutines have been spawned, and which of them were registered
in `r.wg` (`wg.Add(1)` before the `go`). -/
structure EngineTasks where
  wgTasks : List RelayTask
  spawned : List RelayTask
deriving DecidableEq, Repr

/-- State before `Start`: nothing spawned, empty wait group. -/
def EngineTasks.idle : EngineTasks := { wgTasks := [], spawned := [] }

/-- `func (r *Relay) Start()`: registers and spawns the receive loop, and,
iff verbose, registers and spawns the stats reporter. -/
def EngineTasks.start (verbose : Bool) (st : EngineTasks) : EngineTasks :=
  let st' := { st with wgTasks := st.wgTasks ++ [.receiveLoopTask]
                       spawned := st.spawned ++ [.receiveLoopTask] }
  if verbose then
    { st' with wgTasks := st'.wgTasks ++ [.statsReporterTask]
               spawned := st'.spawned ++ [.statsReporterTask] }
  else st'

/-- One `go r.forwardPacket(data, target)` in `receiveLoop`: a goroutine is
spawned with no `wg.Add`. -/
def EngineTasks.dispatchForward (st : EngineTasks) : EngineTasks :=
  { st with spawned := st.spawned ++ [.forwardTask] }

/-- `n` forward dispatches in sequence. -/
def EngineTasks.dispatchForwardN (st : EngineTasks) : Nat → EngineTasks
  | 0 => st
  | n + 1 => (st.dispatchForwardN n).dispatchForward

/-- The ordered side effects of `func (r *Relay) Stop()`. -/
inductive StopAction where
  | closeStopChan
  | closeConn
  | wgWait (tasks : List RelayTask)
  | logFinalStats
deriving DecidableEq, Repr

/-- `Stop` in program order: raise the shutdown signal (`close(stopChan)`),
close the listening socket to unblock a pending read (`conn.Close()`), wait
for every task registered in the wait group (`wg.Wait()`), then log the
final stats snapshot. -/
def EngineTasks.stopActions (st : EngineTasks) : List StopAction :=
  [.closeStopChan, .closeConn, .wgWait st.wgTasks, .logFinalStats]

theorem dispatchForwardN_wgTasks (st : EngineTasks) :
    ∀ n, (st.dispatchForwardN n).wgTasks = st.wgTasks := by
  intro n
  induction n with
  | zero => rfl
  | succ n ih => simp [EngineTasks.dispatchForwardN, EngineTasks.dispatchForward, ih]

/-- Claim C8: after `Start` and any number of forward dispatches, `Stop`
performs, in order: closing the stop channel, closing the listening socket,
waiting on the wait group — which holds exactly the receive loop plus (iff
verbose) the stats reporter, and never any dispatched forward task — and
finally logging the stats snapshot. -/
theorem stop_order_and_waited_tasks (verbose : Bool) (n : Nat) :
    ((EngineTasks.idle.start verbose).dispatchForwardN n).stopActions
      = [.closeStopChan, .closeConn,
         .wgWait ([.receiveLoopTask] ++ if verbose then [.statsReporterTask] else []),
         .logFinalStats] ∧
    RelayTask.forwardTask ∉ ((EngineTasks.idle.start verbose).dispatchForwardN n).wgTasks := by
  have hwg : ((EngineTasks.idle.start verbose).dispatchForwardN n).wgTasks
      = [.receiveLoopTask] ++ if verbose then [.statsReporterTask] else [] := by
    rw [dispatchForwardN_wgTasks]
    cases verbose <;> rfl
  constructor
  · simp [EngineTasks.stopActions, hwg]
  · rw [hwg]
    cases verbose <;> simp

end BroadcastRelay
